import Mathlib

/-!
Verification of the HX711/HX717 host-side driver (`klippy/extras/hx71x.py`)
and the accelerometer vibration probes
(`klippy/extras/adxl345_vib_probe.py`,
`klippy/extras/accelerometer_vibration_probe.py`).

The Python sources are shallowly embedded below: pure computations become
Lean functions over `Nat`/`Int`/`Rat`, fallible construction returns
`Except`, and the measurement lifecycle is modelled as a trace of abstract
device events.  Machinery that lives outside the provided sources
(`bulk_sensor.py`, `bulk_sensor_adc.py`: `TimestampHelper`,
`MAX_BULK_MSG_SIZE`) is abstracted: timestamps are an opaque oracle
function and the bulk-message size bound is a parameter.
-/

namespace HX71x

/-- `BYTES_PER_SAMPLE = 4` — samples are 4 byte wide integers. -/
def BYTES_PER_SAMPLE : ℕ := 4

/-- `MAX_CHIPS = 4`. -/
def MAX_CHIPS : ℕ := 4

/-- Two's-complement reading of an unsigned 32-bit value, as done by
`struct.unpack` with format character `i`. -/
def toSigned32 (u : ℕ) : ℤ :=
  if u < 2 ^ 31 then (u : ℤ) else (u : ℤ) - 2 ^ 32

/-- Little-endian unsigned 32-bit value assembled from the four bytes of
`data` starting at `off` (missing bytes read as 0; the decoder below only
calls this inside the payload). -/
def leWord32 (data : List ℕ) (off : ℕ) : ℕ :=
  data.getD off 0 + 2 ^ 8 * data.getD (off + 1) 0
    + 2 ^ 16 * data.getD (off + 2) 0 + 2 ^ 24 * data.getD (off + 3) 0

/-- One little-endian signed 32-bit value at byte offset `off`. -/
def unpackInt32At (data : List ℕ) (off : ℕ) : ℤ :=
  toSigned32 (leWord32 data off)

/-- `struct.Struct("<%di" % chip_count).unpack_from(data, offset)`:
`cc` consecutive little-endian signed 32-bit values starting at `off`. -/
def unpack_block (cc : ℕ) (data : List ℕ) (off : ℕ) : List ℤ :=
  (List.range cc).map (fun j => unpackInt32At data (off + BYTES_PER_SAMPLE * j))

/-- A raw bulk message: `params['sequence']` and `params['data']`
(a byte string, modelled as a list of byte values). -/
structure RawMsg where
  sequence : ℕ
  data : List ℕ
  deriving Repr, DecidableEq

/-- One decoded sample record
`(timestamps.time_of_msg(i), sum(counts)) + counts`. -/
structure SampleRecord where
  time : ℚ
  total : ℤ
  counts : List ℤ
  deriving Repr, DecidableEq

/-- `HX71xBase._extract_samples`.  `cc` is `self.chip_count`, `maxB` is
`bulk_sensor.MAX_BULK_MSG_SIZE` (a constant of `bulk_sensor.py`, which is
not among the provided sources, hence a parameter), and `ts` abstracts
`TimestampHelper` (defined in `bulk_sensor_adc.py`, also not provided):
`ts seq i` stands for `timestamps.time_of_msg(i)` after
`timestamps.update_sequence(seq)`.  The `collections.deque` with
`maxlen = len(raw_samples) * blocks_per_msg` keeps only the most recent
`maxlen` appended records, modelled by dropping the excess prefix. -/
def extract_samples (cc maxB : ℕ) (ts : ℕ → ℕ → ℚ) (raw : List RawMsg) :
    List SampleRecord :=
  let bytes_per_block := BYTES_PER_SAMPLE * cc
  let blocks_per_msg := maxB / bytes_per_block
  let max_samples := raw.length * blocks_per_msg
  let all := (raw.map (fun m =>
    (List.range (m.data.length / bytes_per_block)).map (fun i =>
      let counts := unpack_block cc m.data (bytes_per_block * i)
      SampleRecord.mk (ts m.sequence i) counts.sum counts))).flatten
  all.drop (all.length - max_samples)

/-- The per-message list of decoded blocks of `m`, for specification
purposes: one entry per complete `bytes_per_block`-sized block. -/
def msgBlocks (cc : ℕ) (m : RawMsg) : List (List ℤ) :=
  (List.range (m.data.length / (BYTES_PER_SAMPLE * cc))).map
    (fun i => unpack_block cc m.data (BYTES_PER_SAMPLE * cc * i))

/-- The per-message list of decoded records of `m`: one record per complete
block, timestamped by the oracle `ts`. -/
def msgRecords (cc : ℕ) (ts : ℕ → ℕ → ℚ) (m : RawMsg) : List SampleRecord :=
  (List.range (m.data.length / (BYTES_PER_SAMPLE * cc))).map (fun i =>
    SampleRecord.mk (ts m.sequence i)
      (unpack_block cc m.data (BYTES_PER_SAMPLE * cc * i)).sum
      (unpack_block cc m.data (BYTES_PER_SAMPLE * cc * i)))

/-- `HX71xBase.get_range`: `range_max = (2 ** 24) * self.chip_count;
return -range_max, range_max`. -/
def get_range (chip_count : ℕ) : ℤ × ℤ :=
  (-(2 ^ 24 * (chip_count : ℤ)), 2 ^ 24 * (chip_count : ℤ))

/-- Modelled from the spec: "each chip's valid range is
`[-2^23 × chip_count, 2^23 × chip_count)`" — the range `get_range` is
documented to return (a HX71x chip produces signed 24-bit counts). -/
def get_range_spec (chip_count : ℕ) : ℤ × ℤ :=
  (-(2 ^ 23 * (chip_count : ℤ)), 2 ^ 23 * (chip_count : ℤ))

/-- A chip channel value at the extreme of its representable 24-bit
range (the saturation condition of the spec). -/
def saturated24 (c : ℤ) : Prop := c = -(2 ^ 23) ∨ c = 2 ^ 23 - 1

instance (c : ℤ) : Decidable (saturated24 c) := by
  unfold saturated24; infer_instance

/-- `HX71xBase._process_batch`.  `update_clock()` and `pull_samples()`
are external I/O; `raw` stands for the messages `pull_samples()`
returned.  `none` models the empty dict `{}`, `some samples` models
`{'data': samples}`. -/
def process_batch (cc maxB : ℕ) (ts : ℕ → ℕ → ℚ) (raw : List RawMsg) :
    Option (List SampleRecord) :=
  if raw.isEmpty then none
  else
    let samples := extract_samples cc maxB ts raw
    if samples.isEmpty then none
    else some samples

/-- Abstract device/logging events issued by the measurement lifecycle
methods.  `send_query oid rest` is `query_hx71x_cmd.send([oid, rest])`;
`send_query_wait_ack oid rest` is `query_hx71x_cmd.send_wait_ack([oid,
rest])` (with `rest = 0` this is the stop command); `raise_fatal` would
model raising an exception (never emitted by `_handle_reset`). -/
inductive DevEvent where
  | clear_samples : DevEvent
  | send_query : ℕ → ℕ → DevEvent
  | send_query_wait_ack : ℕ → ℕ → DevEvent
  | log_info : DevEvent
  | log_error : DevEvent
  | note_start : DevEvent
  | raise_fatal : DevEvent
  deriving Repr, DecidableEq

/-- `HX71xBase._start_measurements`: clear the bulk queue, send the
start command with the computed `rest_ticks`, log, and call
`clock_updater.note_start()`. -/
def start_measurements (oid rest_ticks : ℕ) : List DevEvent :=
  [DevEvent.clear_samples, DevEvent.send_query oid rest_ticks,
   DevEvent.log_info, DevEvent.note_start]

/-- `HX71xBase._finish_measurements`: send the stop command
(`rest_ticks = 0`) waiting for the acknowledgement, clear the bulk
queue, log. -/
def finish_measurements (oid : ℕ) : List DevEvent :=
  [DevEvent.send_query_wait_ack oid 0, DevEvent.clear_samples,
   DevEvent.log_info]

/-- `HX71xBase._handle_reset`: log the reset, then
`_finish_measurements()` then `_start_measurements()`. -/
def handle_reset (oid rest_ticks : ℕ) : List DevEvent :=
  [DevEvent.log_error] ++ finish_measurements oid
    ++ start_measurements oid rest_ticks

/-- Start command events (`query_hx71x_cmd.send`). -/
def isStartCmd : DevEvent → Bool
  | DevEvent.send_query _ _ => true
  | _ => false

/-- Stop command events (`query_hx71x_cmd.send_wait_ack` with
`rest_ticks = 0`). -/
def isStopCmd : DevEvent → Bool
  | DevEvent.send_query_wait_ack _ r => r == 0
  | _ => false

/-- The result of `ppins.lookup_pin`: the owning MCU (`'chip'`, the
`is` identity test on MCU objects is modelled as equality of an MCU
identifier) and the pin name (`'pin'`). -/
structure PinParams where
  chip : ℕ
  pin : ℕ
  deriving Repr, DecidableEq, Inhabited

/-- The configuration surface read by `HX71xBase.__init__`:
`config.get('dout_pin%i' % i)` / `config.get('sclk_pin%i' % i)`
composed with `ppins.lookup_pin`, `none` when the option is absent. -/
structure PrinterConfig where
  dout_pin : ℕ → Option PinParams
  sclk_pin : ℕ → Option PinParams

/-- The chip-scan loop `for i in range(1, 5)`: stop at the first
missing `dout_pin%i`; a present `dout_pin%i` whose `sclk_pin%i` is
missing raises `config.error`. -/
def scanChips : List (Option PinParams × Option PinParams) →
    Except String (List (PinParams × PinParams))
  | [] => Except.ok []
  | (none, _) :: _ => Except.ok []
  | (some _, none) :: _ => Except.error "HX71x config missing sclk_pin"
  | (some d, some s) :: rest =>
      match scanChips rest with
      | Except.error e => Except.error e
      | Except.ok tl => Except.ok ((d, s) :: tl)

/-- The four slot pairs the constructor reads: `(dout_pin%i, sclk_pin%i)`
for `i` in `range(1, 5)`. -/
def configSlots (config : PrinterConfig) :
    List (Option PinParams × Option PinParams) :=
  (List.range MAX_CHIPS).map (fun i =>
    (config.dout_pin (i + 1), config.sclk_pin (i + 1)))

/-- The state `HX71xBase.__init__` establishes for the claims below:
chip count, the shared MCU, and the padded pin-name lists. -/
structure HXState where
  chip_count : ℕ
  mcu : ℕ
  dout_pins : List ℕ
  sclk_pins : List ℕ
  deriving Repr, DecidableEq

/-- The constructor body applied to an explicit slot list: scan the
chips, require at least one, require every dout/sclk pin to be on
`dout_pins[0]['chip']`, then pad slots `chip_count..MAX_CHIPS` with
copies of chip 1's pins and keep the pin names. -/
def initSlots (slots : List (Option PinParams × Option PinParams)) :
    Except String HXState :=
  match scanChips slots with
  | Except.error e => Except.error e
  | Except.ok chips =>
    match chips with
    | [] => Except.error
        "HX71x config error: The minimum number of sensor chips is 1"
    | (d0, s0) :: _ =>
      let mcu := d0.chip
      let dout_pins := chips.map (fun c => c.1)
      let sclk_pins := chips.map (fun c => c.2)
      if (dout_pins ++ sclk_pins).any (fun p => p.chip ≠ mcu) then
        Except.error
          "HX71x config error: All HX71x chips must be connected to the same MCU"
      else
        let dout_padded := dout_pins ++ List.replicate (MAX_CHIPS - chips.length) d0
        let sclk_padded := sclk_pins ++ List.replicate (MAX_CHIPS - chips.length) s0
        Except.ok (HXState.mk chips.length mcu
          (dout_padded.map (fun p => p.pin)) (sclk_padded.map (fun p => p.pin)))

/-- `HX71xBase.__init__` (the topology-validation part): read slots
1..4 from the configuration and build the state. -/
def hx71x_init (config : PrinterConfig) : Except String HXState :=
  initSlots (configSlots config)

/-- Whether an `Except` result is the raised-error case. -/
def isErr {ε α : Type} : Except ε α → Bool
  | Except.error _ => true
  | Except.ok _ => false

/-- The contiguous prefix of slots whose `dout_pin%i` is configured —
exactly the slots the scan loop visits before `break`. -/
def doutPrefix (config : PrinterConfig) :
    List (Option PinParams × Option PinParams) :=
  (configSlots config).takeWhile (fun p => p.1.isSome)

/-- Some scanned slot is missing its `sclk_pin%i`. -/
def missingSclk (config : PrinterConfig) : Bool :=
  (doutPrefix config).any (fun p => p.2.isNone)

/-- The chip pin pairs collected from a slot list's scanned prefix
(meaningful when no scanned slot is missing its sclk pin). -/
def prefixChips (slots : List (Option PinParams × Option PinParams)) :
    List (PinParams × PinParams) :=
  (slots.takeWhile (fun p => p.1.isSome)).map
    (fun p => (p.1.getD default, p.2.getD default))

/-- Some collected dout/sclk pin lives on a different MCU than chip 1's
dout pin (`pin['chip'] is not self.mcu`). -/
def chipsMismatch (chips : List (PinParams × PinParams)) : Bool :=
  match chips with
  | [] => false
  | (d0, _) :: _ =>
    (chips.map (fun c => c.1) ++ chips.map (fun c => c.2)).any
      (fun p => p.chip ≠ d0.chip)

/-- Some scanned pin resolves to a different MCU than chip 1's dout
pin. -/
def mcuMismatch (config : PrinterConfig) : Bool :=
  chipsMismatch (prefixChips (configSlots config))

/-- The pin fields of the `config_hx71x` command built by
`HX71xBase._build_config`: oid, chip count, gain channel, endstop oid,
and the four dout/sclk pin names `dout_pins[0..3]`, `sclk_pins[0..3]`. -/
structure ConfigHX71xCmd where
  oid : ℕ
  chip_count : ℕ
  gain_channel : ℕ
  load_cell_endstop_oid : ℕ
  dout_pin_names : List ℕ
  sclk_pin_names : List ℕ
  deriving Repr, DecidableEq

/-- `HX71xBase._build_config` (the `config_hx71x` command contents). -/
def build_config (st : HXState) (oid gain_channel lce_oid : ℕ) :
    ConfigHX71xCmd :=
  ConfigHX71xCmd.mk oid st.chip_count gain_channel lce_oid
    (st.dout_pins.take MAX_CHIPS) (st.sclk_pins.take MAX_CHIPS)

/-- A configuration identical to `config` except at slot 5. -/
def setSlot5 (config : PrinterConfig) (d s : Option PinParams) :
    PrinterConfig :=
  PrinterConfig.mk
    (fun i => if i = 5 then d else config.dout_pin i)
    (fun i => if i = 5 then s else config.sclk_pin i)

/-- Concrete counterexample configuration: `dout_pin1`/`sclk_pin1`
complete on MCU 0, `dout_pin2` absent, `dout_pin3` present with
`sclk_pin3` absent. -/
def cfgGap : PrinterConfig :=
  PrinterConfig.mk
    (fun i => if i = 1 then some (PinParams.mk 0 10)
              else if i = 3 then some (PinParams.mk 0 12) else none)
    (fun i => if i = 1 then some (PinParams.mk 0 11) else none)

/-- Concrete configuration supplying five complete dout/sclk pin pairs
on one MCU. -/
def cfgFive : PrinterConfig :=
  PrinterConfig.mk
    (fun i => if 1 ≤ i ∧ i ≤ 5 then some (PinParams.mk 0 (10 + i)) else none)
    (fun i => if 1 ≤ i ∧ i ≤ 5 then some (PinParams.mk 0 (20 + i)) else none)

end HX71x

namespace VibProbe

/-- `z_speed_at_time` of `adxl345_vib_probe.py` (closed form):
`axis_r * (self.accel * min(t, accel_t) + speed * max(0, t - accel_t)
- self.accel * max(0, t - accel_t - cruise_t))`. -/
def z_speed_at_time_closed (axis_r accel speed accel_t cruise_t t : ℚ) : ℚ :=
  axis_r * (accel * min t accel_t + speed * max 0 (t - accel_t)
    - accel * max 0 (t - accel_t - cruise_t))

/-- `z_speed_at_time` of `accelerometer_vibration_probe.py`
(piecewise): `axis_r * self.accel * t` while `t < accel_t`,
`axis_r * speed` while `t < accel_t + cruise_t`, else
`axis_r * (speed - self.accel * (t - accel_t - cruise_t))`. -/
def z_speed_at_time_piecewise (axis_r accel speed accel_t cruise_t t : ℚ) : ℚ :=
  if t < accel_t then axis_r * accel * t
  else if t < accel_t + cruise_t then axis_r * speed
  else axis_r * (speed - accel * (t - accel_t - cruise_t))

/-- The values the vibration-move loop of
`AccelerometerVibrationProbe.probe_prepare` closes over: the starting
toolhead position `(X, Y, E)` (`Z` lives in the mutable state), the
axis displacement `(dX, dY, dZ)` and velocity `(vx, vy, vz)` points,
`t_seg = .25 / freq`, `move_t = accel_t * 2 + cruise_t`, and the
`z_speed_at_time` closure `zs`. -/
structure VibParams where
  X : ℚ
  Y : ℚ
  E : ℚ
  dX : ℚ
  dY : ℚ
  dZ : ℚ
  vx : ℚ
  vy : ℚ
  vz : ℚ
  tseg : ℚ
  movet : ℚ
  zs : ℚ → ℚ

/-- The mutable loop state: `t`, `Z`, `sign`, and the accumulated
`moves` list (each move is a position 4-tuple and its `max_v`). -/
structure VibState where
  t : ℚ
  z : ℚ
  sign : ℚ
  moves : List ((ℚ × ℚ × ℚ × ℚ) × ℚ)

/-- One iteration of the `while t < move_t` loop body: append the
outward move at `z_speed_at_time(t)`, advance `t` by `t_seg / 2`,
append the return move at the new speed, advance `t` by `t_seg`, flip
`sign`. -/
def vibIter (p : VibParams) (s : VibState) : VibState :=
  let nX := p.X + s.sign * p.dX
  let nY := p.Y + s.sign * p.dY
  let zv1 := p.zs s.t
  let maxv1 := p.vx ^ 2 + p.vy ^ 2 + (p.vz + zv1) ^ 2
  let z1 := s.z + zv1 * p.tseg
  let nZ := z1 + s.sign * p.dZ
  let t1 := s.t + p.tseg / 2
  let zv2 := p.zs t1
  let maxv2 := p.vx ^ 2 + p.vy ^ 2 + (p.vz + zv2) ^ 2
  let z2 := z1 + zv2 * p.tseg
  VibState.mk (t1 + p.tseg) z2 (-s.sign)
    (s.moves ++ [((nX, nY, nZ, p.E), maxv1), ((p.X, p.Y, z2, p.E), maxv2)])

/-- The `while t < move_t` loop, run with explicit fuel: `none` when
the fuel is exhausted while the loop guard still holds, `some` of the
final state once the guard fails. -/
def vibLoop (p : VibParams) : ℕ → VibState → Option VibState
  | 0, s => if s.t < p.movet then none else some s
  | n + 1, s => if s.t < p.movet then vibLoop p n (vibIter p s) else some s

/-- Concrete parameters exercising the loop: `freq = 10`, so
`t_seg = 1/40`, with `move_t = 1`. -/
def vibDemoParams : VibParams :=
  VibParams.mk 0 0 0 0 0 0 0 0 0 (1 / 40) 1 (fun _ => 0)

end VibProbe

namespace HX71x

/-- When every payload fits in a bulk message (`len(data) ≤
MAX_BULK_MSG_SIZE`), the deque capacity `len(raw_samples) *
blocks_per_msg` is never exceeded, so `_extract_samples` keeps every
decoded record: it is the concatenation of the per-message records. -/
lemma extract_samples_no_drop (cc maxB : ℕ) (ts : ℕ → ℕ → ℚ) (raw : List RawMsg)
    (hlen : ∀ m ∈ raw, m.data.length ≤ maxB) :
    extract_samples cc maxB ts raw = (raw.map (msgRecords cc ts)).flatten := by
  unfold extract_samples
  simp only []
  have hmr : (raw.map (fun m =>
      (List.range (m.data.length / (BYTES_PER_SAMPLE * cc))).map (fun i =>
        let counts := unpack_block cc m.data ((BYTES_PER_SAMPLE * cc) * i)
        SampleRecord.mk (ts m.sequence i) counts.sum counts)))
      = raw.map (msgRecords cc ts) := by
    simp [msgRecords]
  rw [hmr]
  have hlenle : ((raw.map (msgRecords cc ts)).flatten).length
      ≤ raw.length * (maxB / (BYTES_PER_SAMPLE * cc)) := by
    rw [List.length_flatten]
    have h1 : ∀ x ∈ (raw.map (msgRecords cc ts)).map List.length,
        x ≤ maxB / (BYTES_PER_SAMPLE * cc) := by
      intro x hx
      simp only [List.map_map, List.mem_map] at hx
      obtain ⟨m, hm, rfl⟩ := hx
      simp [msgRecords]
      exact Nat.div_le_div_right (hlen m hm)
    have := List.sum_le_card_nsmul _ _ h1
    simpa using this
  rw [Nat.sub_eq_zero_of_le hlenle, List.drop_zero]

/-- Every record `_extract_samples` emits is built as
`(time, sum(counts)) + counts`: its aggregate is the plain integer sum
of its per-channel values, with no clamping. -/
lemma extract_samples_total_eq_sum (cc maxB : ℕ) (ts : ℕ → ℕ → ℚ)
    (raw : List RawMsg) (r : SampleRecord)
    (hr : r ∈ extract_samples cc maxB ts raw) : r.total = r.counts.sum := by
  unfold extract_samples at hr
  have hall := List.mem_of_mem_drop hr
  rw [List.mem_flatten] at hall
  obtain ⟨l, hl, hrl⟩ := hall
  rw [List.mem_map] at hl
  obtain ⟨m, _, rfl⟩ := hl
  rw [List.mem_map] at hrl
  obtain ⟨i, _, rfl⟩ := hrl
  rfl

/-- C1: on payloads made of complete `chip_count`-value blocks that fit
in a bulk message, `_extract_samples` emits exactly one record per
block; the record pairs `(aggregate, channels)` are exactly the decoded
blocks with their integer sums.  Concretely, the 2-chip block encoding
`(100, -50)` decodes to aggregate `50` and channels `[100, -50]`, and
the most negative representable 32-bit value is decoded verbatim, not
clamped to zero, and differs from a mid-range negative value. -/
theorem C1_extract_samples_verbatim
    (cc maxB : ℕ) (ts : ℕ → ℕ → ℚ) (raw : List RawMsg)
    (_hcc : 0 < cc) (hlen : ∀ m ∈ raw, m.data.length ≤ maxB) :
    ((extract_samples cc maxB ts raw).length
        = (raw.map (fun m => m.data.length / (BYTES_PER_SAMPLE * cc))).sum
      ∧ (extract_samples cc maxB ts raw).map (fun r => (r.total, r.counts))
        = ((raw.map (msgBlocks cc)).flatten).map (fun b => (b.sum, b)))
    ∧ (unpack_block 2 [100, 0, 0, 0, 206, 255, 255, 255] 0 = [100, -50]
      ∧ extract_samples 2 52 (fun _ _ => 0)
          [RawMsg.mk 7 [100, 0, 0, 0, 206, 255, 255, 255]]
        = [SampleRecord.mk 0 50 [100, -50]])
    ∧ (unpackInt32At [0, 0, 0, 128] 0 = -(2 ^ 31)
      ∧ unpackInt32At [0, 0, 0, 128] 0 ≠ 0
      ∧ unpackInt32At [156, 255, 255, 255] 0 = -100
      ∧ unpackInt32At [0, 0, 0, 128] 0 ≠ unpackInt32At [156, 255, 255, 255] 0) := by
  refine ⟨⟨?_, ?_⟩, ⟨by decide, by decide⟩, by decide, by decide, by decide,
    by decide⟩
  · rw [extract_samples_no_drop cc maxB ts raw hlen, List.length_flatten,
      List.map_map]
    congr 1
    apply List.map_congr_left
    intro m _
    simp [msgRecords]
  · rw [extract_samples_no_drop cc maxB ts raw hlen, List.map_flatten,
      List.map_flatten]
    congr 1
    simp [msgRecords, msgBlocks, List.map_map, Function.comp]

/-- Witness for C1 at `chip_count = 2` on one message holding one
complete block. -/
theorem C1_witness :
    (0 < 2 ∧ ∀ m ∈ [RawMsg.mk 7 [100, 0, 0, 0, 206, 255, 255, 255]],
        m.data.length ≤ 52)
    ∧ ((extract_samples 2 52 (fun _ _ => 0)
          [RawMsg.mk 7 [100, 0, 0, 0, 206, 255, 255, 255]]).length
        = ([RawMsg.mk 7 [100, 0, 0, 0, 206, 255, 255, 255]].map
            (fun m => m.data.length / (BYTES_PER_SAMPLE * 2))).sum) := by
  refine ⟨⟨by decide, by decide⟩, ?_⟩
  exact (C1_extract_samples_verbatim 2 52 (fun _ _ => 0)
    [RawMsg.mk 7 [100, 0, 0, 0, 206, 255, 255, 255]]
    (by decide) (by decide)).1.1

/-- C3 counterexample: a 2-chip block whose first channel sits at the
extreme negative bound `-2^23`.  The emitted record's aggregate is the
plain sum `-8388508`; it is not clamped or flagged at any saturation
bound (neither `±2^23·chip_count` of the spec nor `±2^24·chip_count`
of `get_range`). -/
theorem C3_counterexample :
    extract_samples 2 52 (fun _ _ => 0)
        [RawMsg.mk 0 [0, 0, 128, 255, 100, 0, 0, 0]]
      = [SampleRecord.mk 0 (-8388508) [-8388608, 100]]
    ∧ saturated24 (-8388608)
    ∧ (-8388508 : ℤ) = ([-8388608, 100] : List ℤ).sum
    ∧ (-8388508 : ℤ) ≠ -(2 ^ 23 * 2) ∧ (-8388508 : ℤ) ≠ 2 ^ 23 * 2
    ∧ (-8388508 : ℤ) ≠ (get_range 2).1 ∧ (-8388508 : ℤ) ≠ (get_range 2).2 := by
  refine ⟨by decide, by decide, by decide, by decide, by decide, ?_, ?_⟩
  · decide
  · decide

/-- C3 amended: every emitted `SampleRecord`'s aggregate equals the sum
of its per-channel values unconditionally — also when a channel is
saturated; saturation is exposed through the verbatim channel values
instead of clamping the aggregate. -/
theorem C3_aggregate_is_sum (cc maxB : ℕ) (ts : ℕ → ℕ → ℚ)
    (raw : List RawMsg) (r : SampleRecord)
    (hr : r ∈ extract_samples cc maxB ts raw) :
    r.total = r.counts.sum :=
  extract_samples_total_eq_sum cc maxB ts raw r hr

/-- Witness for the amended C3 on a record with a saturated channel. -/
theorem C3_witness :
    SampleRecord.mk 0 (-8388508) [-8388608, 100]
        ∈ extract_samples 2 52 (fun _ _ => 0)
            [RawMsg.mk 0 [0, 0, 128, 255, 100, 0, 0, 0]]
    ∧ (SampleRecord.mk (0 : ℚ) (-8388508) [-8388608, 100]).total
        = (SampleRecord.mk (0 : ℚ) (-8388508) [-8388608, 100]).counts.sum := by
  refine ⟨by decide, ?_⟩
  exact C3_aggregate_is_sum 2 52 (fun _ _ => 0)
    [RawMsg.mk 0 [0, 0, 128, 255, 100, 0, 0, 0]]
    (SampleRecord.mk 0 (-8388508) [-8388608, 100]) (by decide)

/-- C2: `get_range` computes `±(2 ** 24) * chip_count`, not the
`±2^23 × chip_count` bound of the spec.  Moreover the code's bound is
unreachable: the sum of `chip_count` signed 24-bit channel values is
strictly inside `get_range`'s interval, so the returned range can never
flag a saturated reading — contradicting the function's own comment
("used to detect if a data value is saturated"). -/
theorem C2_get_range_code_vs_spec :
    (get_range 1 = (-(2 ^ 24), 2 ^ 24)
      ∧ get_range_spec 1 = (-(2 ^ 23), 2 ^ 23)
      ∧ get_range 1 ≠ get_range_spec 1)
    ∧ ∀ (cc : ℕ) (counts : List ℤ), 1 ≤ cc → counts.length = cc →
        (∀ c ∈ counts, -(2 ^ 23) ≤ c ∧ c < 2 ^ 23) →
        (get_range cc).1 < counts.sum ∧ counts.sum < (get_range cc).2 := by
  refine ⟨⟨by decide, by decide, by decide⟩, ?_⟩
  intro cc counts hcc hlen hbound
  have hcc1 : (1 : ℤ) ≤ (cc : ℤ) := by exact_mod_cast hcc
  have hlow : (cc : ℤ) * (-(2 ^ 23)) ≤ counts.sum := by
    have h := List.card_nsmul_le_sum counts (-(2 ^ 23))
      (fun c hc => (hbound c hc).1)
    rw [hlen] at h
    simpa [nsmul_eq_mul] using h
  have hhigh : counts.sum ≤ (cc : ℤ) * (2 ^ 23 - 1) := by
    have h := List.sum_le_card_nsmul counts (2 ^ 23 - 1)
      (fun c hc => by have := (hbound c hc).2; omega)
    rw [hlen] at h
    simpa [nsmul_eq_mul] using h
  constructor
  · have : -(2 ^ 24 * (cc : ℤ)) < (cc : ℤ) * (-(2 ^ 23)) := by nlinarith
    calc (get_range cc).1 = -(2 ^ 24 * (cc : ℤ)) := rfl
      _ < (cc : ℤ) * (-(2 ^ 23)) := this
      _ ≤ counts.sum := hlow
  · have : (cc : ℤ) * (2 ^ 23 - 1) < 2 ^ 24 * (cc : ℤ) := by nlinarith
    calc counts.sum ≤ (cc : ℤ) * (2 ^ 23 - 1) := hhigh
      _ < 2 ^ 24 * (cc : ℤ) := this
      _ = (get_range cc).2 := rfl

/-- Witness for C2's evaluation theorem at `chip_count = 1` with a
single mid-range channel value. -/
theorem C2_witness :
    (1 ≤ 1 ∧ ([(0 : ℤ)]).length = 1
      ∧ ∀ c ∈ ([(0 : ℤ)]), -(2 ^ 23) ≤ c ∧ c < 2 ^ 23)
    ∧ (get_range 1).1 < ([(0 : ℤ)]).sum ∧ ([(0 : ℤ)]).sum < (get_range 1).2 := by
  refine ⟨⟨by decide, by decide, by decide⟩, ?_⟩
  exact C2_get_range_code_vs_spec.2 1 [0] (by decide) (by decide) (by decide)

/-- C4: `_handle_reset` logs the reset (it raises nothing), then
performs exactly one finish (stop command with acknowledgement wait,
then queue clear) immediately followed by exactly one start (queue
clear, start command, `note_start`), in that order. -/
theorem C4_handle_reset_stop_then_start (oid rest_ticks : ℕ) :
    handle_reset oid rest_ticks
      = [DevEvent.log_error]
          ++ finish_measurements oid ++ start_measurements oid rest_ticks
    ∧ handle_reset oid rest_ticks
      = [DevEvent.log_error, DevEvent.send_query_wait_ack oid 0,
         DevEvent.clear_samples, DevEvent.log_info, DevEvent.clear_samples,
         DevEvent.send_query oid rest_ticks, DevEvent.log_info,
         DevEvent.note_start]
    ∧ (handle_reset oid rest_ticks).countP isStopCmd = 1
    ∧ (handle_reset oid rest_ticks).countP isStartCmd = 1
    ∧ (handle_reset oid rest_ticks).findIdx isStopCmd
        < (handle_reset oid rest_ticks).findIdx isStartCmd
    ∧ DevEvent.log_error ∈ handle_reset oid rest_ticks
    ∧ DevEvent.raise_fatal ∉ handle_reset oid rest_ticks := by
  have hstop : (handle_reset oid rest_ticks).findIdx isStopCmd = 1 := rfl
  have hstart : (handle_reset oid rest_ticks).findIdx isStartCmd = 5 := rfl
  refine ⟨rfl, rfl, rfl, rfl, ?_, ?_, ?_⟩
  · rw [hstop, hstart]; omega
  · simp [handle_reset, finish_measurements, start_measurements]
  · simp [handle_reset, finish_measurements, start_measurements]

/-- C8: a batch cycle with nothing to decode is a no-op: when
`pull_samples` returned no messages, or when decoding the pulled
messages yields no samples, `_process_batch` returns the empty result
`{}` (and it returns `{}` only in those two situations). -/
theorem C8_process_batch_empty_is_noop (cc maxB : ℕ) (ts : ℕ → ℕ → ℚ)
    (raw : List RawMsg) :
    (raw = [] → process_batch cc maxB ts raw = none)
    ∧ (extract_samples cc maxB ts raw = [] →
        process_batch cc maxB ts raw = none)
    ∧ (process_batch cc maxB ts raw = none →
        raw = [] ∨ extract_samples cc maxB ts raw = []) := by
  unfold process_batch
  by_cases hraw : raw.isEmpty
  · rw [List.isEmpty_iff] at hraw
    subst hraw
    simp
  · simp only [if_neg hraw]
    by_cases hs : (extract_samples cc maxB ts raw).isEmpty
    · rw [List.isEmpty_iff] at hs
      simp [hs]
    · rw [List.isEmpty_iff] at hraw hs
      simp [hraw, hs, List.isEmpty_iff]

/-- Witness for C8: an empty pull, and a pull whose only message is
shorter than one block (so decoding yields no samples). -/
theorem C8_witness :
    (([] : List RawMsg) = [] → process_batch 2 52 (fun _ _ => 0) [] = none)
    ∧ (extract_samples 2 52 (fun _ _ => 0) [RawMsg.mk 0 [1, 2]] = []
        ∧ (extract_samples 2 52 (fun _ _ => 0) [RawMsg.mk 0 [1, 2]] = [] →
            process_batch 2 52 (fun _ _ => 0) [RawMsg.mk 0 [1, 2]] = none)) :=
  ⟨(C8_process_batch_empty_is_noop 2 52 (fun _ _ => 0) []).1,
    by decide,
    (C8_process_batch_empty_is_noop 2 52 (fun _ _ => 0) [RawMsg.mk 0 [1, 2]]).2.1⟩

/-- The chip-scan loop raises `config.error` exactly when some slot in
the contiguous configured-dout prefix is missing its sclk pin. -/
lemma scan_isErr (slots : List (Option PinParams × Option PinParams)) :
    isErr (scanChips slots)
      = (slots.takeWhile (fun p => p.1.isSome)).any (fun p => p.2.isNone) := by
  induction slots with
  | nil => rfl
  | cons hd tl ih =>
    obtain ⟨d, s⟩ := hd
    cases d with
    | none => rfl
    | some d =>
      cases s with
      | none => rfl
      | some s =>
        have hrw : isErr (scanChips ((some d, some s) :: tl))
            = isErr (scanChips tl) := by
          simp only [scanChips]
          cases scanChips tl <;> rfl
        calc isErr (scanChips ((some d, some s) :: tl))
            = isErr (scanChips tl) := hrw
          _ = (tl.takeWhile (fun p => p.1.isSome)).any (fun p => p.2.isNone) :=
              ih

/-- When no scanned slot is missing its sclk pin, the scan succeeds and
collects exactly the pin pairs of the configured-dout prefix. -/
lemma scan_ok_prefixChips (slots : List (Option PinParams × Option PinParams))
    (h : (slots.takeWhile (fun p => p.1.isSome)).any (fun p => p.2.isNone)
      = false) :
    scanChips slots = Except.ok (prefixChips slots) := by
  induction slots with
  | nil => rfl
  | cons hd tl ih =>
    obtain ⟨d, s⟩ := hd
    cases d with
    | none => rfl
    | some d =>
      cases s with
      | none => simp [List.takeWhile] at h
      | some s =>
        have htl : (tl.takeWhile (fun p => p.1.isSome)).any
            (fun p => p.2.isNone) = false := by
          simpa [List.takeWhile] using h
        simp only [scanChips, ih htl, prefixChips, List.takeWhile]
        rfl

/-- The scan returns at most one chip per slot. -/
lemma scan_length_le (slots : List (Option PinParams × Option PinParams)) :
    ∀ chips, scanChips slots = Except.ok chips → chips.length ≤ slots.length := by
  induction slots with
  | nil =>
    intro chips h
    obtain rfl : ([] : List (PinParams × PinParams)) = chips :=
      Except.ok.inj h
    simp
  | cons hd tl ih =>
    intro chips h
    obtain ⟨d, s⟩ := hd
    cases d with
    | none =>
      obtain rfl : ([] : List (PinParams × PinParams)) = chips :=
        Except.ok.inj h
      simp
    | some d =>
      cases s with
      | none => exact absurd h (by simp [scanChips])
      | some s =>
        simp only [scanChips] at h
        cases htl : scanChips tl with
        | error e => rw [htl] at h; exact absurd h (by simp)
        | ok l =>
          rw [htl] at h
          obtain rfl : (d, s) :: l = chips := Except.ok.inj h
          have := ih l htl
          simpa using Nat.succ_le_succ this

/-- The constructor body errors exactly when the scanned prefix has a
missing sclk pin, is empty, or holds a pin on a different MCU. -/
lemma initSlots_isErr (slots : List (Option PinParams × Option PinParams)) :
    isErr (initSlots slots)
      = ((slots.takeWhile (fun p => p.1.isSome)).any (fun p => p.2.isNone)
        || (slots.takeWhile (fun p => p.1.isSome)).isEmpty
        || chipsMismatch (prefixChips slots)) := by
  cases hA : (slots.takeWhile (fun p => p.1.isSome)).any (fun p => p.2.isNone)
    with
  | true =>
    have h1 : isErr (scanChips slots) = true := by rw [scan_isErr, hA]
    rcases hscan : scanChips slots with e | l
    · simp [initSlots, hscan, isErr]
    · rw [hscan] at h1
      exact absurd h1 (by simp [isErr])
  | false =>
    have hok := scan_ok_prefixChips slots hA
    rcases hchips : prefixChips slots with _ | ⟨⟨d0, s0⟩, tl⟩
    · have hempty : slots.takeWhile (fun p => p.1.isSome) = [] := by
        have := hchips
        unfold prefixChips at this
        exact List.map_eq_nil_iff.mp this
      rw [hchips] at hok
      simp [initSlots, hok, isErr, hempty, chipsMismatch]
    · have hne : (slots.takeWhile (fun p => p.1.isSome)).isEmpty = false := by
        have : slots.takeWhile (fun p => p.1.isSome) ≠ [] := by
          intro hnil
          unfold prefixChips at hchips
          rw [hnil] at hchips
          exact absurd hchips.symm (by simp)
        simpa [List.isEmpty_iff] using this
      rw [hchips] at hok
      rw [hne]
      simp only [Bool.false_or]
      simp only [initSlots, hok, chipsMismatch]
      cases hC : (((d0, s0) :: tl).map (fun c => c.1)
          ++ ((d0, s0) :: tl).map (fun c => c.2)).any
            (fun p => decide (p.chip ≠ d0.chip)) with
      | true => simp [isErr]
      | false => simp [isErr]

/-- C5 counterexample: in `cfgGap`, `dout_pin3` is configured without
`sclk_pin3` (and slot 1 is a complete pair on one MCU), yet
construction raises no configuration error — the scan loop breaks at
the missing `dout_pin2` and never sees slot 3. -/
theorem C5_counterexample :
    (cfgGap.dout_pin 3).isSome = true
    ∧ (cfgGap.sclk_pin 3).isNone = true
    ∧ isErr (hx71x_init cfgGap) = false
    ∧ hx71x_init cfgGap
      = Except.ok (HXState.mk 1 0 [10, 10, 10, 10] [11, 11, 11, 11]) := by
  refine ⟨by decide, by decide, by decide, by rfl⟩

/-- C5 amended: construction raises a configuration error exactly when,
scanning slots 1..4 and stopping at the first missing `dout_pin%i`, a
scanned slot is missing its `sclk_pin%i`, or no slot is scanned (chip
count < 1, i.e. `dout_pin1` absent), or a scanned pin resolves to a
different MCU than chip 1's dout pin; in particular a configuration
whose scanned prefix is nonempty, fully paired and on a single MCU
raises none of these errors. -/
theorem C5_init_error_characterization :
    (∀ config : PrinterConfig,
      isErr (hx71x_init config)
        = (missingSclk config || (doutPrefix config).isEmpty
            || mcuMismatch config))
    ∧ ∀ config : PrinterConfig,
        missingSclk config = false → (doutPrefix config).isEmpty = false →
        mcuMismatch config = false → isErr (hx71x_init config) = false := by
  have hmain : ∀ config : PrinterConfig,
      isErr (hx71x_init config)
        = (missingSclk config || (doutPrefix config).isEmpty
            || mcuMismatch config) := by
    intro config
    unfold hx71x_init missingSclk doutPrefix mcuMismatch
    exact initSlots_isErr (configSlots config)
  refine ⟨hmain, fun config h1 h2 h3 => ?_⟩
  rw [hmain config, h1, h2, h3]
  rfl

/-- Witness for C5's positive direction: `cfgGap`'s scanned prefix is
the single complete pair of slot 1, all on MCU 0, and construction
succeeds. -/
theorem C5_witness :
    (missingSclk cfgGap = false ∧ (doutPrefix cfgGap).isEmpty = false
      ∧ mcuMismatch cfgGap = false)
    ∧ isErr (hx71x_init cfgGap) = false := by
  refine ⟨⟨by decide, by decide, by decide⟩, ?_⟩
  exact C5_init_error_characterization.2 cfgGap (by decide) (by decide)
    (by decide)

/-- C6 counterexample: `cfgFive` supplies a fifth complete dout/sclk
pin pair, yet construction raises no configuration error: it reads only
slots 1..4 and succeeds with `chip_count = 4`. -/
theorem C6_counterexample :
    (cfgFive.dout_pin 5).isSome = true
    ∧ (cfgFive.sclk_pin 5).isSome = true
    ∧ isErr (hx71x_init cfgFive) = false
    ∧ hx71x_init cfgFive
      = Except.ok (HXState.mk 4 0 [11, 12, 13, 14] [21, 22, 23, 24]) := by
  refine ⟨by decide, by decide, by decide, by rfl⟩

/-- C6 amended: a fifth dout/sclk pin pair is not rejected but ignored:
construction never reads slot 5 (its result is unchanged by any slot-5
entries), and any successfully constructed state has at most
`MAX_CHIPS = 4` chips. -/
theorem C6_fifth_slot_ignored :
    (∀ (config : PrinterConfig) (d s : Option PinParams),
      hx71x_init (setSlot5 config d s) = hx71x_init config)
    ∧ ∀ (config : PrinterConfig) (st : HXState),
        hx71x_init config = Except.ok st → st.chip_count ≤ MAX_CHIPS := by
  constructor
  · intro config d s
    have hslots : configSlots (setSlot5 config d s) = configSlots config := by
      unfold configSlots setSlot5
      norm_num [MAX_CHIPS, List.range_succ]
    unfold hx71x_init
    rw [hslots]
  · intro config st h
    unfold hx71x_init initSlots at h
    cases hscan : scanChips (configSlots config) with
    | error e => rw [hscan] at h; exact absurd h (by simp)
    | ok chips =>
      rw [hscan] at h
      have hlen : chips.length ≤ (configSlots config).length :=
        scan_length_le (configSlots config) chips hscan
      have hslots : (configSlots config).length = MAX_CHIPS := by
        simp [configSlots]
      rcases chips with _ | ⟨⟨d0, s0⟩, tl⟩
      · exact absurd h (by simp)
      · simp only [] at h
        split at h
        · exact absurd h (by simp)
        · obtain rfl : HXState.mk ((d0, s0) :: tl).length d0.chip _ _ = st :=
            Except.ok.inj h
          rw [hslots] at hlen
          exact hlen

/-- Every record's channel list is one decoded block:
`struct.unpack` with format `"<%di" % chip_count` yields exactly
`chip_count` values. -/
lemma extract_samples_counts_length (cc maxB : ℕ) (ts : ℕ → ℕ → ℚ)
    (raw : List RawMsg) (r : SampleRecord)
    (hr : r ∈ extract_samples cc maxB ts raw) : r.counts.length = cc := by
  unfold extract_samples at hr
  have hall := List.mem_of_mem_drop hr
  rw [List.mem_flatten] at hall
  obtain ⟨l, hl, hrl⟩ := hall
  rw [List.mem_map] at hl
  obtain ⟨m, _, rfl⟩ := hl
  rw [List.mem_map] at hrl
  obtain ⟨i, _, rfl⟩ := hrl
  simp [unpack_block]

/-- A successful construction always goes through the scan-ok,
nonempty-chips, matching-MCU path, and pads the pin lists with chip 1's
pins. -/
lemma init_ok_shape (slots : List (Option PinParams × Option PinParams))
    (st : HXState) (h : initSlots slots = Except.ok st) :
    ∃ (d0 s0 : PinParams) (tl : List (PinParams × PinParams)),
      scanChips slots = Except.ok ((d0, s0) :: tl)
      ∧ st.chip_count = ((d0, s0) :: tl).length
      ∧ st.dout_pins
        = (((d0, s0) :: tl).map (fun c => c.1)
            ++ List.replicate (MAX_CHIPS - ((d0, s0) :: tl).length) d0).map
              (fun p => p.pin)
      ∧ st.sclk_pins
        = (((d0, s0) :: tl).map (fun c => c.2)
            ++ List.replicate (MAX_CHIPS - ((d0, s0) :: tl).length) s0).map
              (fun p => p.pin) := by
  unfold initSlots at h
  cases hscan : scanChips slots with
  | error e => rw [hscan] at h; exact absurd h (by simp)
  | ok chips =>
    rw [hscan] at h
    rcases chips with _ | ⟨⟨d0, s0⟩, tl⟩
    · exact absurd h (by simp)
    · simp only [] at h
      split at h
      · exact absurd h (by simp)
      · obtain rfl := Except.ok.inj h
        exact ⟨d0, s0, tl, rfl, rfl, rfl, rfl⟩

/-- C7: with fewer than 4 chips configured, both pin lists are padded
to the 4 slots of the `config_hx71x` command with copies of chip 1's
pin (slots `chip_count..3` all equal slot 0), the built configuration
command carries exactly those padded lists, and every decoded record
holds exactly `chip_count` channel values — the padded slots are never
decoded. -/
theorem C7_padding_and_channel_count (config : PrinterConfig) (st : HXState)
    (oid gain_channel lce_oid : ℕ)
    (hok : hx71x_init config = Except.ok st)
    (hlt : st.chip_count < MAX_CHIPS) :
    (st.dout_pins.length = MAX_CHIPS ∧ st.sclk_pins.length = MAX_CHIPS)
    ∧ (∀ i : ℕ, st.chip_count ≤ i → i < MAX_CHIPS →
        st.dout_pins.getD i 0 = st.dout_pins.getD 0 0
        ∧ st.sclk_pins.getD i 0 = st.sclk_pins.getD 0 0)
    ∧ ((build_config st oid gain_channel lce_oid).dout_pin_names = st.dout_pins
      ∧ (build_config st oid gain_channel lce_oid).sclk_pin_names = st.sclk_pins
      ∧ (build_config st oid gain_channel lce_oid).chip_count = st.chip_count)
    ∧ ∀ (maxB : ℕ) (ts : ℕ → ℕ → ℚ) (raw : List RawMsg) (r : SampleRecord),
        r ∈ extract_samples st.chip_count maxB ts raw →
        r.counts.length = st.chip_count := by
  obtain ⟨d0, s0, tl, hscan, hcc, hdout, hsclk⟩ :=
    init_ok_shape (configSlots config) st hok
  have hccle : tl.length + 1 ≤ MAX_CHIPS := by
    have := scan_length_le (configSlots config) _ hscan
    simpa [configSlots, MAX_CHIPS] using this
  have hZd : st.dout_pins
      = (d0.pin :: tl.map (fun c => c.1.pin))
        ++ List.replicate (MAX_CHIPS - (tl.length + 1)) d0.pin := by
    rw [hdout]
    simp [List.map_append, List.map_replicate, List.map_map, Function.comp]
  have hZs : st.sclk_pins
      = (s0.pin :: tl.map (fun c => c.2.pin))
        ++ List.replicate (MAX_CHIPS - (tl.length + 1)) s0.pin := by
    rw [hsclk]
    simp [List.map_append, List.map_replicate, List.map_map, Function.comp]
  have hcc2 : st.chip_count = tl.length + 1 := by simpa using hcc
  have hlend : st.dout_pins.length = MAX_CHIPS := by
    rw [hZd]
    simp
    omega
  have hlens : st.sclk_pins.length = MAX_CHIPS := by
    rw [hZs]
    simp
    omega
  refine ⟨⟨hlend, hlens⟩, ?_, ⟨?_, ?_, rfl⟩, ?_⟩
  · intro i hi1 hi2
    rw [hcc2] at hi1
    have hj : i - (tl.length + 1) < MAX_CHIPS - (tl.length + 1) := by omega
    constructor
    · rw [hZd, List.getD_append_right _ _ 0 i (by simp; omega)]
      simp [List.getD, List.getElem?_replicate, hj]
    · rw [hZs, List.getD_append_right _ _ 0 i (by simp; omega)]
      simp [List.getD, List.getElem?_replicate, hj]
  · unfold build_config
    simp only []
    rw [← hlend, List.take_length]
  · unfold build_config
    simp only []
    rw [← hlens, List.take_length]
  · intro maxB ts raw r hr
    exact extract_samples_counts_length st.chip_count maxB ts raw r hr

/-- Witness for C7 at `cfgGap` (one configured chip, slots 2-4
padded). -/
theorem C7_witness :
    (hx71x_init cfgGap
        = Except.ok (HXState.mk 1 0 [10, 10, 10, 10] [11, 11, 11, 11])
      ∧ (HXState.mk 1 0 [10, 10, 10, 10] [11, 11, 11, 11]).chip_count
          < MAX_CHIPS)
    ∧ ((HXState.mk (1 : ℕ) (0 : ℕ) [10, 10, 10, 10]
          [11, 11, 11, 11]).dout_pins.length = MAX_CHIPS
      ∧ (HXState.mk (1 : ℕ) (0 : ℕ) [10, 10, 10, 10]
          [11, 11, 11, 11]).sclk_pins.length = MAX_CHIPS) := by
  refine ⟨⟨by rfl, by decide⟩, ?_⟩
  exact (C7_padding_and_channel_count cfgGap
    (HXState.mk 1 0 [10, 10, 10, 10] [11, 11, 11, 11]) 0 0 0
    (by rfl) (by decide)).1

/-- Witness for C6's chip-count bound at `cfgFive`. -/
theorem C6_witness :
    hx71x_init cfgFive
      = Except.ok (HXState.mk 4 0 [11, 12, 13, 14] [21, 22, 23, 24])
    ∧ (HXState.mk 4 0 [11, 12, 13, 14] [21, 22, 23, 24]).chip_count
        ≤ MAX_CHIPS := by
  refine ⟨by rfl, ?_⟩
  exact C6_fifth_slot_ignored.2 cfgFive
    (HXState.mk 4 0 [11, 12, 13, 14] [21, 22, 23, 24]) (by rfl)

end HX71x

namespace VibProbe

/-- Each loop-body iteration advances `t` by `t_seg / 2 + t_seg = 1.5 t_seg`. -/
lemma vibIter_t (p : VibParams) (s : VibState) :
    (vibIter p s).t = s.t + 3 / 2 * p.tseg := by
  unfold vibIter
  simp only []
  ring

/-- Each loop-body iteration appends exactly two moves. -/
lemma vibIter_moves_length (p : VibParams) (s : VibState) :
    (vibIter p s).moves.length = s.moves.length + 2 := by
  unfold vibIter
  simp

/-- Fuel covering `move_t` suffices: if `move_t ≤ t + n · 1.5·t_seg`, the
loop finishes within `n` iterations and appends at most `2n` moves. -/
lemma vibLoop_succeeds (p : VibParams) :
    ∀ (n : ℕ) (s : VibState), p.movet ≤ s.t + (n : ℚ) * (3 / 2 * p.tseg) →
      ∃ s2, vibLoop p n s = some s2
        ∧ s2.moves.length ≤ s.moves.length + 2 * n := by
  intro n
  induction n with
  | zero =>
    intro s h
    refine ⟨s, ?_, by omega⟩
    unfold vibLoop
    rw [if_neg (by push_cast at h; simp at h; linarith)]
  | succ k ih =>
    intro s h
    by_cases hlt : s.t < p.movet
    · have h2 : p.movet ≤ (vibIter p s).t + (k : ℚ) * (3 / 2 * p.tseg) := by
        rw [vibIter_t]
        push_cast at h ⊢
        linarith
      obtain ⟨s2, hs2, hlen⟩ := ih (vibIter p s) h2
      have hm := vibIter_moves_length p s
      refine ⟨s2, ?_, by omega⟩
      unfold vibLoop
      rw [if_pos hlt]
      exact hs2
    · refine ⟨s, ?_, by omega⟩
      unfold vibLoop
      rw [if_neg hlt]

/-- C10: for `freq ≥ 10` (so `t_seg = 0.25/freq > 0`) and `move_t ≥ 0`,
the vibration-move loop of `probe_prepare` terminates within
`⌈move_t / (1.5·t_seg)⌉` iterations — run with that much fuel it never
exhausts it — emitting at most two moves per iteration, and each
iteration appends exactly two moves and advances `t` by `1.5·t_seg`. -/
theorem C10_vibration_loop_terminates (p : VibParams) (freq Z0 : ℚ)
    (hfreq : 10 ≤ freq) (htseg : p.tseg = 1 / 4 / freq) (_hmv : 0 ≤ p.movet) :
    (∃ s2, vibLoop p (⌈p.movet / (3 / 2 * p.tseg)⌉₊) (VibState.mk 0 Z0 1 [])
        = some s2
      ∧ s2.moves.length ≤ 2 * ⌈p.movet / (3 / 2 * p.tseg)⌉₊)
    ∧ ∀ s : VibState, (vibIter p s).moves.length = s.moves.length + 2
        ∧ (vibIter p s).t = s.t + 3 / 2 * p.tseg := by
  have hfpos : 0 < freq := by linarith
  have htpos : 0 < 3 / 2 * p.tseg := by
    rw [htseg]
    positivity
  have hceil : p.movet
      ≤ (VibState.mk 0 Z0 1 []).t
        + ((⌈p.movet / (3 / 2 * p.tseg)⌉₊ : ℕ) : ℚ) * (3 / 2 * p.tseg) := by
    have h1 : p.movet / (3 / 2 * p.tseg)
        ≤ ((⌈p.movet / (3 / 2 * p.tseg)⌉₊ : ℕ) : ℚ) := Nat.le_ceil _
    show p.movet ≤ 0 + _
    rw [zero_add]
    calc p.movet = p.movet / (3 / 2 * p.tseg) * (3 / 2 * p.tseg) :=
          (div_mul_cancel₀ _ (ne_of_gt htpos)).symm
      _ ≤ _ := mul_le_mul_of_nonneg_right h1 (le_of_lt htpos)
  obtain ⟨s2, hs2, hlen⟩ :=
    vibLoop_succeeds p (⌈p.movet / (3 / 2 * p.tseg)⌉₊) (VibState.mk 0 Z0 1 [])
      hceil
  exact ⟨⟨s2, hs2, by simpa using hlen⟩,
    fun s => ⟨vibIter_moves_length p s, vibIter_t p s⟩⟩

/-- Witness for C10 at `freq = 10`, `move_t = 1`. -/
theorem C10_witness :
    (10 ≤ (10 : ℚ) ∧ vibDemoParams.tseg = 1 / 4 / 10
      ∧ (0 : ℚ) ≤ vibDemoParams.movet)
    ∧ (∃ s2, vibLoop vibDemoParams
          ⌈vibDemoParams.movet / (3 / 2 * vibDemoParams.tseg)⌉₊
          (VibState.mk 0 0 1 []) = some s2
        ∧ s2.moves.length
            ≤ 2 * ⌈vibDemoParams.movet / (3 / 2 * vibDemoParams.tseg)⌉₊) := by
  refine ⟨⟨by norm_num, by norm_num [vibDemoParams], by norm_num [vibDemoParams]⟩,
    ?_⟩
  exact (C10_vibration_loop_terminates vibDemoParams 10 0 (by norm_num)
    (by norm_num [vibDemoParams]) (by norm_num [vibDemoParams])).1

/-- C9 counterexample: at `axis_r = accel = speed = accel_t = 1`,
`cruise_t = 2`, `t = 2` (all the claimed constraints hold, including
the physical relation `speed = accel · accel_t`), the closed form gives
`2` but the piecewise form gives `1`. -/
theorem C9_counterexample :
    z_speed_at_time_closed 1 1 1 1 2 2 = 2
    ∧ z_speed_at_time_piecewise 1 1 1 1 2 2 = 1
    ∧ z_speed_at_time_closed 1 1 1 1 2 2
        ≠ z_speed_at_time_piecewise 1 1 1 1 2 2
    ∧ ((0 : ℚ) < 1 ∧ (0 : ℚ) ≤ 1 ∧ (0 : ℚ) ≤ 2 ∧ (0 : ℚ) ≤ 2
        ∧ (1 : ℚ) = 1 * 1) := by
  norm_num [z_speed_at_time_closed, z_speed_at_time_piecewise, min_def, max_def]

/-- C9 amended: the two `z_speed_at_time` implementations agree on the
acceleration phase `0 ≤ t < accel_t`; on the cruise and deceleration
phases they differ in general (see the counterexample). -/
theorem C9_agree_on_acceleration_phase
    (axis_r accel speed accel_t cruise_t t : ℚ)
    (_haccel : 0 < accel) (_hat : 0 ≤ accel_t) (hct : 0 ≤ cruise_t)
    (_ht0 : 0 ≤ t) (ht : t < accel_t) :
    z_speed_at_time_closed axis_r accel speed accel_t cruise_t t
      = z_speed_at_time_piecewise axis_r accel speed accel_t cruise_t t := by
  unfold z_speed_at_time_closed z_speed_at_time_piecewise
  rw [if_pos ht, min_eq_left (le_of_lt ht),
    max_eq_left (by linarith), max_eq_left (by linarith)]
  ring

/-- Witness for C9 on the acceleration phase at `t = 0 < accel_t = 1`. -/
theorem C9_witness :
    ((0 : ℚ) < 1 ∧ (0 : ℚ) ≤ 1 ∧ (0 : ℚ) ≤ 0 ∧ (0 : ℚ) ≤ 0 ∧ (0 : ℚ) < 1)
    ∧ z_speed_at_time_closed 1 1 5 1 0 0
        = z_speed_at_time_piecewise 1 1 5 1 0 0 :=
  ⟨⟨by norm_num, by norm_num, le_refl 0, le_refl 0, by norm_num⟩,
    C9_agree_on_acceleration_phase 1 1 5 1 0 0 (by norm_num) (by norm_num)
      (le_refl 0) (le_refl 0) (by norm_num)⟩


end VibProbe
